import Mathlib

/-!
# kraft unset: the `UnsetOptions.Run` command

A shallow embedding of `internal/cli/kraft/unset/unset.go`.

`Run` talks to its collaborators (the logger, `os.Getwd`, `os.Stat`,
`confirm.NewConfirm`, `textinput.NewTextInput`, `app.NewProjectFromOptions`
and the project's `Unset`).  Their answers are the fields of `Env`; every call
that `Run` makes is appended, in program order, to a trace of `Event`s, so
that "is called", "is called before" and "is called with" are statements
about that trace.  Errors that `Run` creates with `fmt.Errorf` are kept apart
from the error values it receives from a collaborator, as Go keeps them apart
by identity.
-/

namespace Unset

/-! ## The command: data and collaborators -/

/-- An error value produced by a collaborator (the Go `error` a library call
returns); only its message is kept. -/
structure ExtErr where
  msg : String
  deriving DecidableEq, Repr

/-- The Go `error` values `Run` can return: the ones it creates itself with
`fmt.Errorf` (a fresh value holding the formatted message) and the ones it
passes on unchanged from a collaborator. -/
inductive Error where
  | errorf (msg : String)
  | collab (e : ExtErr)
  deriving DecidableEq, Repr

/-- A project as returned by `app.NewProjectFromOptions`; the library is
outside this file, a project is a handle. -/
structure Project where
  handle : Nat
  deriving DecidableEq, Repr

/-- The outcome of `os.Stat` as far as `Run` looks at it: no error, an error
for which `os.IsNotExist` holds, or any other error. -/
inductive StatResult where
  | found
  | errNotExist
  | errOther (e : ExtErr)
  deriving DecidableEq, Repr

/-- The function `os.IsNotExist` applied to the error of a stat outcome. -/
def StatResult.isNotExist : StatResult → Bool
  | .errNotExist => true
  | _ => false

/-- The result of a collaborator returning `(value, error)`. -/
inductive Res (α : Type) where
  | ok (a : α)
  | err (e : ExtErr)
  deriving DecidableEq, Repr

/-- The struct `UnsetOptions`. -/
structure UnsetOptions where
  Workdir : String
  deriving DecidableEq, Repr

/-- The collaborators of `Run`, as the answers they give. -/
structure Env where
  /-- The call `os.Getwd()`. -/
  getwd : Res String
  /-- The call `os.Stat(path)`. -/
  stat : String → StatResult
  /-- The call `confirm.NewConfirm(prompt)`. -/
  newConfirm : String → Res Bool
  /-- The call `textinput.NewTextInput(prompt, placeholder, default)`. -/
  newTextInput : String → String → String → Res String
  /-- The call `app.NewProjectFromOptions(ctx, WithProjectWorkdir(workdir),
  WithProjectConfig(confOpts))`. -/
  newProjectFromOptions : String → List String → Res Project
  /-- The call `project.Unset(ctx, nil)`: `none` is the nil error. -/
  projectUnset : Project → Option ExtErr

/-- One call made by `Run`, with its arguments and the answer it got. -/
inductive Event where
  | warnf (msg : String)
  | getwd (r : Res String)
  | stat (path : String) (r : StatResult)
  | newConfirm (prompt : String) (r : Res Bool)
  | newTextInput (prompt placeholder dflt : String) (r : Res String)
  | newProjectFromOptions (workdir : String) (confOpts : List String) (r : Res Project)
  | projectUnset (p : Project) (r : Option ExtErr)
  deriving DecidableEq, Repr

/-- Which collaborator an event is a call of. -/
inductive Kind where
  | warnf | getwd | stat | newConfirm | newTextInput | newProjectFromOptions | projectUnset
  deriving DecidableEq, Repr

/-- The collaborator called in an event. -/
def Event.kind : Event → Kind
  | .warnf _ => .warnf
  | .getwd _ => .getwd
  | .stat _ _ => .stat
  | .newConfirm _ _ => .newConfirm
  | .newTextInput _ _ _ _ => .newTextInput
  | .newProjectFromOptions _ _ _ => .newProjectFromOptions
  | .projectUnset _ _ => .projectUnset

/-- The error a call returned to `Run`, for the calls whose error `Run`
receives as a Go `error` value of its own (`os.Stat` is only asked whether
the file is missing). -/
def Event.failure : Event → Option ExtErr
  | .getwd (.err e) => some e
  | .newConfirm _ (.err e) => some e
  | .newTextInput _ _ _ (.err e) => some e
  | .newProjectFromOptions _ _ (.err e) => some e
  | .projectUnset _ (some e) => some e
  | _ => none

/-- The loop `for _, arg := range args { confOpts = append(confOpts, arg+"=n") }`
started from `confOpts`. -/
def appendConfOpts (confOpts : List String) (args : List String) : List String :=
  args.foldl (fun acc arg => acc ++ [arg ++ "=n"]) confOpts

/-- The last block of `Run` (lines 156-167): construct the project from the
workdir and the directives, then unset. -/
def constructAndUnset (env : Env) (workdir : String) (confOpts : List String)
    (tr : List Event) : Option Error × List Event :=
  let r := env.newProjectFromOptions workdir confOpts
  let tr := tr ++ [Event.newProjectFromOptions workdir confOpts r]
  match r with
  | .err e => (some (.collab e), tr)
  | .ok project =>
    let u := env.projectUnset project
    (u.map Error.collab, tr ++ [Event.projectUnset project u])

/-- The part of `Run` after the working directory is set (lines 125-167). -/
def runInWorkdir (env : Env) (workdir : String) (args : List String)
    (tr : List Event) : Option Error × List Event :=
  let confOpts := appendConfOpts [] args
  let dotconfig := workdir ++ "/.config"
  let st := env.stat dotconfig
  let tr := tr ++ [Event.stat dotconfig st]
  if st.isNotExist then
    let c := env.newConfirm "Do you want to start in interactive mode:"
    let tr := tr ++ [Event.newConfirm "Do you want to start in interactive mode:" c]
    match c with
    | .err ierr => (some (.collab ierr), tr)
    | .ok true =>
      let t := env.newTextInput "Path to dotconfig file:" "Enter path" ""
      let tr := tr ++ [Event.newTextInput "Path to dotconfig file:" "Enter path" "" t]
      match t with
      | .err err => (some (.collab err), tr)
      | .ok dotconfig =>
        if dotconfig = "" then
          (some (.errorf ("dotconfig file does not exist: " ++ dotconfig)), tr)
        else
          constructAndUnset env workdir confOpts tr
    | .ok false =>
      (some (.errorf ("dotconfig file does not exist: " ++ dotconfig)), tr)
  else
    constructAndUnset env workdir confOpts tr

/-- The block "Set the working directory" (lines 115-123): the `Workdir`
option when it is not empty, else the answer of `os.Getwd`, with the calls
made. -/
def setWorkdir (env : Env) (opts : UnsetOptions) : Res String × List Event :=
  if opts.Workdir ≠ "" then
    (.ok opts.Workdir, [])
  else
    (env.getwd, [Event.getwd env.getwd])

/-- The method `(*UnsetOptions).Run`: the returned error (`none` is nil) and
the calls made, in order. -/
def Run (env : Env) (opts : UnsetOptions) (args : List String) :
    Option Error × List Event :=
  let tr := [Event.warnf "This command is DEPRECATED and should not be used"]
  if args.length = 0 then
    (some (.errorf "no options to unset"), tr)
  else
    match setWorkdir env opts with
    | (.err err, evs) => (some (.collab err), tr ++ evs)
    | (.ok workdir, evs) => runInWorkdir env workdir args (tr ++ evs)

/-- The function `Unset`: a nil `opts` is replaced by the zero value. -/
def UnsetFn (env : Env) (opts : Option UnsetOptions) (args : List String) :
    Option Error × List Event :=
  Run env (opts.getD ⟨""⟩) args

/-- An environment in which `<workdir>/.config` exists for the listed paths,
the prompts answer as given, and every project call succeeds. -/
def mkEnv (cwd : String) (existing : List String) (confirmAns : Bool)
    (pathAns : String) : Env where
  getwd := .ok cwd
  stat := fun p => if p ∈ existing then .found else .errNotExist
  newConfirm := fun _ => .ok confirmAns
  newTextInput := fun _ _ _ => .ok pathAns
  newProjectFromOptions := fun _ _ => .ok ⟨0⟩
  projectUnset := fun _ => none

/-- An environment as `mkEnv` in which `app.NewProjectFromOptions` fails. -/
def mkEnvProjectErr (cwd : String) (existing : List String) (msg : String) : Env where
  getwd := .ok cwd
  stat := fun p => if p ∈ existing then .found else .errNotExist
  newConfirm := fun _ => .ok false
  newTextInput := fun _ _ _ => .ok ""
  newProjectFromOptions := fun _ _ => .err ⟨msg⟩
  projectUnset := fun _ => none

/-- The spec's `OverrideSet.build` on one raw argument (spec section 4.2),
written from the spec's words to be compared with what `Run` builds: the
argument is read as `NAME=VALUE`, split at its first `=`; when it holds no
`=`, the value defaults to the literal `n`. -/
def specBuildDirective (raw : String) : String × String :=
  match raw.toList.span (fun ch => ch != '=') with
  | (name, []) => (String.mk name, "n")
  | (name, _ :: value) => (String.mk name, String.mk value)

/-- The text `NAME=VALUE` of a directive. -/
def renderDirective (d : String × String) : String :=
  d.1 ++ "=" ++ d.2

/-- The key of a text read as `NAME=VALUE` the way the spec reads it: its
part before the first `=` (the whole text when it holds no `=`). -/
def directiveKey (text : String) : String :=
  (specBuildDirective text).1

/-! ## Names for the texts and trace segments of `Run` -/

/-- The message of the deprecation warning `Run` logs first. -/
def deprecationMsg : String := "This command is DEPRECATED and should not be used"

/-- The prompt of the confirmation. -/
def confirmPrompt : String := "Do you want to start in interactive mode:"

/-- The prefix of every error `Run` creates for a missing dotconfig. -/
def notFoundMsg : String := "dotconfig file does not exist: "

/-- The events up to and including the existence check. -/
def eventsToStat (env : Env) (pre : List Event) (w : String) : List Event :=
  Event.warnf deprecationMsg :: (pre ++ [Event.stat (w ++ "/.config") (env.stat (w ++ "/.config"))])

/-- The events of the two prompts, the text input having answered `t`. -/
def promptEvents (t : Res String) : List Event :=
  [Event.newConfirm confirmPrompt (.ok true),
   Event.newTextInput "Path to dotconfig file:" "Enter path" "" t]

/-! ## The overlay engine behind `project.Unset`

The project library (`kraftkit.sh/unikraft/app`) is not part of the sources
read here; the definitions of this section follow the specification. -/

/-- Modelled from the spec: the value of a configuration entry (section 3,
ConfigEntry): boolean `y`/`n`, quoted string, decimal integer or hexadecimal
integer.  The configuration library of the project is missing from the
sources. -/
inductive Value where
  | bool (b : Bool)
  | str (s : String)
  | dec (n : Int)
  | hex (n : Nat)
  deriving DecidableEq, Repr

/-- Modelled from the spec: the textual form of a value in a dotconfig line
(section 6, file format); the serializer is missing from the sources. -/
def renderValue : Value → String
  | .bool true => "y"
  | .bool false => "n"
  | .str s => "\"" ++ s ++ "\""
  | .dec n => toString n
  | .hex n => "0x" ++ String.mk (Nat.toDigits 16 n)

/-- Modelled from the spec: a ConfigEntry (section 3), one configuration line
with its key, its value and its original text; the type is missing from the
sources. -/
structure ConfigEntry where
  key : String
  value : Value
  raw : String
  deriving DecidableEq, Repr

/-- Modelled from the spec: a line of a ConfigSnapshot (section 3), either an
entry or a non-entry line (comment, blank, unknown form) kept verbatim; the
type is missing from the sources. -/
inductive Line where
  | entry (e : ConfigEntry)
  | other (raw : String)
  deriving DecidableEq, Repr

/-- Modelled from the spec: a ConfigSnapshot (section 3), the lines of the
file in file order; the type is missing from the sources. -/
abbrev ConfigSnapshot := List Line

/-- Modelled from the spec: the origin of a Directive (section 3), always an
explicit caller request; the type is missing from the sources. -/
inductive Origin where
  | explicitRequest
  deriving DecidableEq, Repr

/-- Modelled from the spec: a Directive (section 3), a single override with
key, value and origin; the type is missing from the sources. -/
structure Directive where
  key : String
  value : Value
  origin : Origin
  deriving DecidableEq, Repr

/-- Modelled from the spec: one recorded change of a MergeResult (section 3);
the type is missing from the sources. -/
inductive Change where
  | added
  | changed (old new : Value)
  | removed
  deriving DecidableEq, Repr

/-- Modelled from the spec: a MergeResult (section 3), the new snapshot and
the changes recorded per key, in the order they were recorded; the type is
missing from the sources. -/
structure MergeResult where
  snapshot : ConfigSnapshot
  changes : List (String × Change)
  deriving DecidableEq, Repr

/-- Modelled from the spec: the value a snapshot gives a key, the last
occurrence winning when a malformed file holds the key more than once
(section 3, ConfigSnapshot); the lookup is missing from the sources. -/
def lookup : ConfigSnapshot → String → Option Value
  | [], _ => none
  | l :: ls, k =>
    match lookup ls k with
    | some v => some v
    | none =>
      match l with
      | .entry e => if e.key = k then some e.value else none
      | .other _ => none

/-- Modelled from the spec: the entry written for key `k` with value `v`, its
text being `KEY=VALUE` (section 6); the constructor is missing from the
sources. -/
def mkEntry (k : String) (v : Value) : Line :=
  .entry ⟨k, v, k ++ "=" ++ renderValue v⟩

/-- Modelled from the spec: the snapshot with the value of key `k` set to
`v` in the entry that counts for `k` (its last occurrence), every other line
kept verbatim and in place (section 4.4); the update is missing from the
sources. -/
def setValue : ConfigSnapshot → String → Value → ConfigSnapshot
  | [], _, _ => []
  | l :: ls, k, v =>
    match lookup ls k with
    | some _ => l :: setValue ls k v
    | none =>
      match l with
      | .entry e => if e.key = k then mkEntry k v :: ls else l :: ls
      | .other _ => l :: ls

/-- Modelled from the spec: the step of `OverlayResolver.merge` for one
directive (section 4.4): when the key exists in `base` and its value differs,
the value is set and `changed` recorded; when it is identical nothing is
recorded and the entry stays as it is; when the key does not exist a new
entry is appended at the end and `added` recorded.  The merge is missing from
the sources. -/
def applyDirective (base : ConfigSnapshot) (acc : MergeResult) (d : Directive) :
    MergeResult :=
  match lookup base d.key with
  | some old =>
    if old = d.value then acc
    else ⟨setValue acc.snapshot d.key d.value, acc.changes ++ [(d.key, .changed old d.value)]⟩
  | none => ⟨acc.snapshot ++ [mkEntry d.key d.value], acc.changes ++ [(d.key, .added)]⟩

/-- Modelled from the spec: `OverlayResolver.merge(base, overrides)` (section
4.4), the directives applied in the order they were supplied; the merge is
missing from the sources. -/
def merge (base : ConfigSnapshot) (overrides : List Directive) : MergeResult :=
  overrides.foldl (applyDirective base) ⟨base, []⟩

/-- Modelled from the spec: the directives of the unset workflow for a list
of option names, each `NAME=n` (sections 4.2 and 6); the builder is missing
from the sources. -/
def unsetDirectives (names : List String) : List Directive :=
  names.map (fun name => ⟨name, .bool false, .explicitRequest⟩)

/-- A snapshot `t` extends `s`: every key `s` has, `t` has, and every key
that is `n` in `s` is `n` in `t`. -/
def Extends (s t : ConfigSnapshot) : Prop :=
  ∀ k, ((lookup s k).isSome → (lookup t k).isSome) ∧
    (lookup s k = some (.bool false) → lookup t k = some (.bool false))

/-! ## Helper lemmas -/

theorem appendConfOpts_eq (acc args : List String) :
    appendConfOpts acc args = acc ++ args.map (fun a => a ++ "=n") := by
  unfold appendConfOpts
  induction args generalizing acc with
  | nil => simp
  | cons a as ih => simp [List.foldl_cons, ih]

theorem confOpts_eq (args : List String) :
    appendConfOpts [] args = args.map (fun a => a ++ "=n") := by
  simp [appendConfOpts_eq]

theorem setWorkdir_cases (env : Env) (opts : UnsetOptions) :
    (opts.Workdir ≠ "" ∧ setWorkdir env opts = (.ok opts.Workdir, [])) ∨
    (opts.Workdir = "" ∧ setWorkdir env opts = (env.getwd, [Event.getwd env.getwd])) := by
  unfold setWorkdir
  by_cases h : opts.Workdir = "" <;> simp [h]

/-- Case analysis of a run on a non-empty argument list: every run is one of
nine paths through `Run`, each with its result and its full trace. -/
theorem Run_cases (env : Env) (opts : UnsetOptions) (args : List String)
    (hne : args ≠ []) (P : Option Error × List Event → Prop)
    (hGetwd : ∀ e, opts.Workdir = "" → env.getwd = .err e →
      P (some (.collab e), [Event.warnf deprecationMsg, Event.getwd (.err e)]))
    (hConfirmErr : ∀ w pre e, setWorkdir env opts = (.ok w, pre) →
      (env.stat (w ++ "/.config")).isNotExist = true → env.newConfirm confirmPrompt = .err e →
      P (some (.collab e), eventsToStat env pre w ++ [Event.newConfirm confirmPrompt (.err e)]))
    (hDeclined : ∀ w pre, setWorkdir env opts = (.ok w, pre) →
      (env.stat (w ++ "/.config")).isNotExist = true → env.newConfirm confirmPrompt = .ok false →
      P (some (.errorf (notFoundMsg ++ (w ++ "/.config"))),
        eventsToStat env pre w ++ [Event.newConfirm confirmPrompt (.ok false)]))
    (hInputErr : ∀ w pre e, setWorkdir env opts = (.ok w, pre) →
      (env.stat (w ++ "/.config")).isNotExist = true → env.newConfirm confirmPrompt = .ok true →
      env.newTextInput "Path to dotconfig file:" "Enter path" "" = .err e →
      P (some (.collab e), eventsToStat env pre w ++ promptEvents (.err e)))
    (hInputEmpty : ∀ w pre, setWorkdir env opts = (.ok w, pre) →
      (env.stat (w ++ "/.config")).isNotExist = true → env.newConfirm confirmPrompt = .ok true →
      env.newTextInput "Path to dotconfig file:" "Enter path" "" = .ok "" →
      P (some (.errorf (notFoundMsg ++ "")), eventsToStat env pre w ++ promptEvents (.ok "")))
    (hProject : ∀ w pre mid, setWorkdir env opts = (.ok w, pre) →
      ((env.stat (w ++ "/.config")).isNotExist = false ∧ mid = [] ∨
        ∃ p, (env.stat (w ++ "/.config")).isNotExist = true ∧
          env.newConfirm confirmPrompt = .ok true ∧
          env.newTextInput "Path to dotconfig file:" "Enter path" "" = .ok p ∧ p ≠ "" ∧
          mid = promptEvents (.ok p)) →
      P (constructAndUnset env w (args.map (fun a => a ++ "=n")) (eventsToStat env pre w ++ mid))) :
    P (Run env opts args) := by
  have hlen : ¬ args.length = 0 := by
    intro h; exact hne (List.length_eq_zero.mp h)
  have key : ∀ w pre, setWorkdir env opts = (.ok w, pre) →
      P (runInWorkdir env w args ([Event.warnf deprecationMsg] ++ pre)) := by
    intro w pre hs
    simp only [runInWorkdir, confOpts_eq]
    cases hst : (env.stat (w ++ "/.config")).isNotExist with
    | false =>
      have := hProject w pre [] hs (Or.inl ⟨hst, rfl⟩)
      simpa [eventsToStat] using this
    | true =>
      simp only [if_true]
      cases hc : env.newConfirm "Do you want to start in interactive mode:" with
      | err e =>
        have := hConfirmErr w pre e hs hst hc
        simpa [eventsToStat, confirmPrompt] using this
      | ok b =>
        cases b with
        | false =>
          have := hDeclined w pre hs hst hc
          simpa [eventsToStat, confirmPrompt, notFoundMsg] using this
        | true =>
          cases ht : env.newTextInput "Path to dotconfig file:" "Enter path" "" with
          | err e =>
            have := hInputErr w pre e hs hst hc ht
            simpa [eventsToStat, confirmPrompt, promptEvents] using this
          | ok p =>
            by_cases hp : p = ""
            · subst hp
              have := hInputEmpty w pre hs hst hc ht
              simpa [eventsToStat, confirmPrompt, promptEvents, notFoundMsg] using this
            · have := hProject w pre (promptEvents (.ok p)) hs
                (Or.inr ⟨p, hst, hc, ht, hp, rfl⟩)
              simpa [eventsToStat, confirmPrompt, promptEvents, hp] using this
  simp only [Run, hlen, if_false]
  rcases setWorkdir_cases env opts with ⟨hW, hs⟩ | ⟨hW, hs⟩
  · have := key _ _ hs
    rw [hs]
    exact this
  · cases hg : env.getwd with
    | err e =>
      have := hGetwd e hW hg
      rw [hs, hg]
      simpa [deprecationMsg] using this
    | ok w =>
      rw [hg] at hs
      have := key _ _ hs
      rw [hs]
      exact this

theorem setWorkdir_ok (env : Env) (opts : UnsetOptions) (w : String) (pre : List Event)
    (h : setWorkdir env opts = (.ok w, pre)) :
    (opts.Workdir ≠ "" ∧ opts.Workdir = w ∧ pre = []) ∨
    (opts.Workdir = "" ∧ env.getwd = .ok w ∧ pre = [Event.getwd (.ok w)]) := by
  rcases setWorkdir_cases env opts with ⟨hW, hs⟩ | ⟨hW, hs⟩
  · rw [hs] at h
    simp only [Prod.mk.injEq, Res.ok.injEq] at h
    exact Or.inl ⟨hW, h.1, h.2.symm⟩
  · rw [hs] at h
    simp only [Prod.mk.injEq] at h
    refine Or.inr ⟨hW, h.1, ?_⟩
    rw [← h.2, h.1]

/-- Case analysis of the last block of `Run`. -/
theorem constructAndUnset_cases (env : Env) (w : String) (c : List String)
    (tr : List Event) (P : Option Error × List Event → Prop)
    (hErr : ∀ e, env.newProjectFromOptions w c = .err e →
      P (some (.collab e), tr ++ [Event.newProjectFromOptions w c (.err e)]))
    (hOk : ∀ proj, env.newProjectFromOptions w c = .ok proj →
      P ((env.projectUnset proj).map Error.collab,
        tr ++ [Event.newProjectFromOptions w c (.ok proj),
          Event.projectUnset proj (env.projectUnset proj)])) :
    P (constructAndUnset env w c tr) := by
  simp only [constructAndUnset]
  cases h : env.newProjectFromOptions w c with
  | err e => simpa using hErr e h
  | ok proj => simpa using hOk proj h

/-- Case analysis of a run on a non-empty argument list, with every trace
spelled out: `pre` is the working-directory lookup (absent when the option is
set) and `mid` the two prompts (absent when the dotconfig was found). -/
theorem Run_elim (env : Env) (opts : UnsetOptions) (args : List String)
    (hne : args ≠ []) (P : Option Error × List Event → Prop)
    (hGetwd : ∀ e, setWorkdir env opts = (.err e, [Event.getwd (.err e)]) →
      opts.Workdir = "" → env.getwd = .err e →
      P (some (.collab e), [Event.warnf deprecationMsg, Event.getwd (.err e)]))
    (hConfirmErr : ∀ w pre e, setWorkdir env opts = (.ok w, pre) →
      (env.stat (w ++ "/.config")).isNotExist = true → env.newConfirm confirmPrompt = .err e →
      (pre = [] ∨ pre = [Event.getwd (.ok w)]) →
      P (some (.collab e), eventsToStat env pre w ++ [Event.newConfirm confirmPrompt (.err e)]))
    (hDeclined : ∀ w pre, setWorkdir env opts = (.ok w, pre) →
      (env.stat (w ++ "/.config")).isNotExist = true → env.newConfirm confirmPrompt = .ok false →
      (pre = [] ∨ pre = [Event.getwd (.ok w)]) →
      P (some (.errorf (notFoundMsg ++ (w ++ "/.config"))),
        eventsToStat env pre w ++ [Event.newConfirm confirmPrompt (.ok false)]))
    (hInputErr : ∀ w pre e, setWorkdir env opts = (.ok w, pre) →
      (env.stat (w ++ "/.config")).isNotExist = true → env.newConfirm confirmPrompt = .ok true →
      env.newTextInput "Path to dotconfig file:" "Enter path" "" = .err e →
      (pre = [] ∨ pre = [Event.getwd (.ok w)]) →
      P (some (.collab e), eventsToStat env pre w ++ promptEvents (.err e)))
    (hInputEmpty : ∀ w pre, setWorkdir env opts = (.ok w, pre) →
      (env.stat (w ++ "/.config")).isNotExist = true → env.newConfirm confirmPrompt = .ok true →
      env.newTextInput "Path to dotconfig file:" "Enter path" "" = .ok "" →
      (pre = [] ∨ pre = [Event.getwd (.ok w)]) →
      P (some (.errorf (notFoundMsg ++ "")), eventsToStat env pre w ++ promptEvents (.ok "")))
    (hProjectErr : ∀ w pre mid e, setWorkdir env opts = (.ok w, pre) →
      env.newProjectFromOptions w (args.map (fun a => a ++ "=n")) = .err e →
      (pre = [] ∨ pre = [Event.getwd (.ok w)]) →
      ((env.stat (w ++ "/.config")).isNotExist = false ∧ mid = [] ∨
        ∃ p, (env.stat (w ++ "/.config")).isNotExist = true ∧
          env.newConfirm confirmPrompt = .ok true ∧
          env.newTextInput "Path to dotconfig file:" "Enter path" "" = .ok p ∧ p ≠ "" ∧
          mid = promptEvents (.ok p)) →
      P (some (.collab e), eventsToStat env pre w ++ mid ++
        [Event.newProjectFromOptions w (args.map (fun a => a ++ "=n")) (.err e)]))
    (hUnset : ∀ w pre mid proj, setWorkdir env opts = (.ok w, pre) →
      env.newProjectFromOptions w (args.map (fun a => a ++ "=n")) = .ok proj →
      (pre = [] ∨ pre = [Event.getwd (.ok w)]) →
      ((env.stat (w ++ "/.config")).isNotExist = false ∧ mid = [] ∨
        ∃ p, (env.stat (w ++ "/.config")).isNotExist = true ∧
          env.newConfirm confirmPrompt = .ok true ∧
          env.newTextInput "Path to dotconfig file:" "Enter path" "" = .ok p ∧ p ≠ "" ∧
          mid = promptEvents (.ok p)) →
      P ((env.projectUnset proj).map Error.collab, eventsToStat env pre w ++ mid ++
        [Event.newProjectFromOptions w (args.map (fun a => a ++ "=n")) (.ok proj),
          Event.projectUnset proj (env.projectUnset proj)])) :
    P (Run env opts args) := by
  have hp : ∀ w pre, setWorkdir env opts = (.ok w, pre) →
      (pre = [] ∨ pre = [Event.getwd (.ok w)]) := by
    intro w pre hs
    rcases setWorkdir_ok env opts w pre hs with ⟨_, _, h⟩ | ⟨_, _, h⟩
    · exact Or.inl h
    · exact Or.inr h
  refine Run_cases env opts args hne P ?_ ?_ ?_ ?_ ?_ ?_
  · intro e hW hg
    refine hGetwd e ?_ hW hg
    simp [setWorkdir, hW, hg]
  · intro w pre e hs h1 h2
    exact hConfirmErr w pre e hs h1 h2 (hp w pre hs)
  · intro w pre hs h1 h2
    exact hDeclined w pre hs h1 h2 (hp w pre hs)
  · intro w pre e hs h1 h2 h3
    exact hInputErr w pre e hs h1 h2 h3 (hp w pre hs)
  · intro w pre hs h1 h2 h3
    exact hInputEmpty w pre hs h1 h2 h3 (hp w pre hs)
  · intro w pre mid hs hmid
    refine constructAndUnset_cases env w _ _ P ?_ ?_
    · intro e he
      exact hProjectErr w pre mid e hs he (hp w pre hs) hmid
    · intro proj hproj
      exact hUnset w pre mid proj hs hproj (hp w pre hs) hmid

theorem notFoundMsg_append_ne (x : String) :
    notFoundMsg ++ x ≠ "no options to unset" := by
  intro h
  have h2 := congrArg (fun s => s.data.head?) h
  simp [notFoundMsg, String.data_append] at h2

theorem isNotExist_eq_true (r : StatResult) :
    r.isNotExist = true ↔ r = .errNotExist := by
  cases r <;> simp [StatResult.isNotExist]

theorem isNotExist_eq_false (r : StatResult) :
    r.isNotExist = false ↔ r ≠ .errNotExist := by
  cases r <;> simp [StatResult.isNotExist]

theorem prompts_absent_of_not_missing (env : Env) (opts : UnsetOptions)
    (args : List String) (hne : args ≠ []) :
    ((∀ p r, Event.stat p r ∈ (Run env opts args).2 → r.isNotExist = false) →
        ∀ ev ∈ (Run env opts args).2,
          ev.kind ≠ .newConfirm ∧ ev.kind ≠ .newTextInput) := by
  refine Run_elim env opts args hne
      (fun out =>
        ((∀ p r, Event.stat p r ∈ out.2 → r.isNotExist = false) →
          ∀ ev ∈ out.2, ev.kind ≠ .newConfirm ∧ ev.kind ≠ .newTextInput))
      ?_ ?_ ?_ ?_ ?_ ?_ ?_
  all_goals intros
  all_goals try rcases ‹_ = [] ∨ _ = [Event.getwd _]› with rfl | rfl
  all_goals try rcases ‹_ ∧ _ = [] ∨ _› with ⟨_, rfl⟩ | ⟨p, _, _, _, _, rfl⟩
  all_goals
    simp_all [eventsToStat, promptEvents, Event.kind, isNotExist_eq_true,
      isNotExist_eq_false]

theorem confirm_after_missing (env : Env) (opts : UnsetOptions)
    (args : List String) (hne : args ≠ []) :
      (∀ ev ∈ (Run env opts args).2, ev.kind = .newConfirm →
        ∃ p, [Event.stat p .errNotExist, ev].Sublist (Run env opts args).2) := by
  refine Run_elim env opts args hne
      (fun out =>
        (∀ ev ∈ out.2, ev.kind = .newConfirm →
          ∃ p, [Event.stat p .errNotExist, ev].Sublist out.2))
      ?_ ?_ ?_ ?_ ?_ ?_ ?_
  all_goals intros
  all_goals try rcases ‹_ = [] ∨ _ = [Event.getwd _]› with rfl | rfl
  all_goals try rcases ‹_ ∧ _ = [] ∨ _› with ⟨_, rfl⟩ | ⟨p, _, _, _, _, rfl⟩
  all_goals
    simp_all only [eventsToStat, promptEvents, Event.kind, isNotExist_eq_true,
      isNotExist_eq_false, List.forall_mem_cons, List.cons_append, List.nil_append,
      List.append_assoc, List.singleton_append, List.mem_cons, forall_eq_or_imp, forall_eq,
      List.not_mem_nil, false_implies, implies_true, and_true, true_and, reduceCtorEq,
      IsEmpty.forall_iff, List.mem_singleton, forall_true_left, true_implies]
  all_goals
    apply Exists.intro
    repeat first
      | exact List.Sublist.refl _
      | apply List.Sublist.cons₂
      | apply List.Sublist.cons

theorem textInput_after_confirm (env : Env) (opts : UnsetOptions)
    (args : List String) (hne : args ≠ []) :
      (∀ ev ∈ (Run env opts args).2, ev.kind = .newTextInput →
        ∃ p q, [Event.stat p .errNotExist, Event.newConfirm q (.ok true), ev].Sublist
          (Run env opts args).2) := by
  refine Run_elim env opts args hne
      (fun out =>
        (∀ ev ∈ out.2, ev.kind = .newTextInput →
        ∃ p q, [Event.stat p .errNotExist, Event.newConfirm q (.ok true), ev].Sublist
          out.2))
      ?_ ?_ ?_ ?_ ?_ ?_ ?_
  all_goals intros
  all_goals try rcases ‹_ = [] ∨ _ = [Event.getwd _]› with rfl | rfl
  all_goals try rcases ‹_ ∧ _ = [] ∨ _› with ⟨_, rfl⟩ | ⟨p, _, _, _, _, rfl⟩
  all_goals
    simp_all only [eventsToStat, promptEvents, Event.kind, isNotExist_eq_true,
      isNotExist_eq_false, List.forall_mem_cons, List.cons_append, List.nil_append,
      List.append_assoc, List.singleton_append, List.mem_cons, forall_eq_or_imp, forall_eq,
      List.not_mem_nil, false_implies, implies_true, and_true, true_and, reduceCtorEq,
      IsEmpty.forall_iff, List.mem_singleton, forall_true_left, true_implies]
  all_goals
    apply Exists.intro
    apply Exists.intro
    repeat first
      | exact List.Sublist.refl _
      | apply List.Sublist.cons₂
      | apply List.Sublist.cons

theorem kinds_nodup (env : Env) (opts : UnsetOptions) (args : List String)
    (hne : args ≠ []) : ((Run env opts args).2.map Event.kind).Nodup := by
  refine Run_elim env opts args hne (fun out => (out.2.map Event.kind).Nodup)
    ?_ ?_ ?_ ?_ ?_ ?_ ?_
  all_goals intros
  all_goals try rcases ‹_ = [] ∨ _ = [Event.getwd _]› with rfl | rfl
  all_goals try rcases ‹_ ∧ _ = [] ∨ _› with ⟨_, rfl⟩ | ⟨p, _, _, _, _, rfl⟩
  all_goals simp [eventsToStat, promptEvents, Event.kind]

theorem failure_is_terminal (env : Env) (opts : UnsetOptions) (args : List String)
    (hne : args ≠ []) :
    ∀ ev ∈ (Run env opts args).2, ∀ e, ev.failure = some e →
      (Run env opts args).1 = some (.collab e) ∧ (Run env opts args).2.getLast? = some ev := by
  refine Run_elim env opts args hne
    (fun out => ∀ ev ∈ out.2, ∀ e, ev.failure = some e →
      out.1 = some (.collab e) ∧ out.2.getLast? = some ev)
    ?_ ?_ ?_ ?_ ?_ ?_ ?_
  all_goals intros
  all_goals try rcases ‹_ = [] ∨ _ = [Event.getwd _]› with rfl | rfl
  all_goals try rcases ‹_ ∧ _ = [] ∨ _› with ⟨_, rfl⟩ | ⟨p, _, _, _, _, rfl⟩
  all_goals simp_all [eventsToStat, promptEvents, Event.failure]
  all_goals
    cases h : env.projectUnset ‹Project› <;> simp [Event.failure]

theorem result_is_unset_result (env : Env) (opts : UnsetOptions) (args : List String)
    (hne : args ≠ []) (w : String) (proj : Project)
    (hw : (setWorkdir env opts).1 = .ok w)
    (hres : (env.stat (w ++ "/.config")).isNotExist = false ∨
      ∃ p, p ≠ "" ∧ env.newConfirm "Do you want to start in interactive mode:" = .ok true ∧
        env.newTextInput "Path to dotconfig file:" "Enter path" "" = .ok p)
    (hproj : env.newProjectFromOptions w (args.map (fun a => a ++ "=n")) = .ok proj) :
    (Run env opts args).1 = (env.projectUnset proj).map Error.collab ∧
      (Run env opts args).2.getLast? =
        some (Event.projectUnset proj (env.projectUnset proj)) := by
  refine Run_elim env opts args hne
    (fun out => out.1 = (env.projectUnset proj).map Error.collab ∧
      out.2.getLast? = some (Event.projectUnset proj (env.projectUnset proj)))
    ?_ ?_ ?_ ?_ ?_ ?_ ?_
  all_goals intros
  all_goals try rcases ‹_ = [] ∨ _ = [Event.getwd _]› with rfl | rfl
  all_goals try rcases ‹_ ∧ _ = [] ∨ _› with ⟨_, rfl⟩ | ⟨p, _, _, _, _, rfl⟩
  all_goals
    simp_all [eventsToStat, promptEvents, confirmPrompt, isNotExist_eq_true,
      isNotExist_eq_false]

theorem append_suffix_injective (t : String) :
    Function.Injective (fun a : String => a ++ t) := by
  intro a b h
  have h2 := congrArg String.data h
  simp only [String.data_append] at h2
  exact String.ext (List.append_cancel_right h2)

theorem append_suffix_ne_self (a : String) : a ++ "=n" ≠ a := by
  intro h
  have h2 := congrArg (fun s => s.data.length) h
  simp [String.data_append] at h2

theorem renderDirective_n (a : String) : renderDirective (a, "n") = a ++ "=n" := by
  apply String.ext
  simp [renderDirective, String.data_append]

theorem specBuildDirective_of_no_eq (raw : String) (h : '=' ∉ raw.toList) :
    specBuildDirective raw = (raw, "n") := by
  have hall : ∀ x ∈ raw.toList, (fun ch => ch != '=') x = true := by
    intro x hx
    have : x ≠ '=' := fun hxe => h (hxe ▸ hx)
    simpa using this
  have h1 : raw.toList.takeWhile (fun ch => ch != '=') = raw.toList :=
    List.takeWhile_eq_self_iff.mpr hall
  have h2 : raw.toList.dropWhile (fun ch => ch != '=') = [] :=
    List.dropWhile_eq_nil_iff.mpr hall
  unfold specBuildDirective
  rw [List.span_eq_take_drop, h1, h2]
  rfl

theorem render_specBuildDirective_of_eq (raw : String) (h : '=' ∈ raw.toList) :
    renderDirective (specBuildDirective raw) = raw := by
  have hsplit := List.takeWhile_append_dropWhile (fun ch => ch != '=') raw.toList
  have hne : raw.toList.dropWhile (fun ch => ch != '=') ≠ [] := by
    intro hnil
    have hall := List.dropWhile_eq_nil_iff.mp hnil
    have := hall '=' h
    simp at this
  unfold specBuildDirective
  rw [List.span_eq_take_drop]
  cases hd : raw.toList.dropWhile (fun ch => ch != '=') with
  | nil => exact absurd hd hne
  | cons x rest =>
    have hx : x = '=' := by
      have h3 := List.head?_dropWhile_not (fun ch => ch != '=') raw.toList
      rw [hd] at h3
      simpa using h3
    subst hx
    apply String.ext
    rw [hd] at hsplit
    simp only [renderDirective, String.data_append]
    show _ ++ ['='] ++ rest = raw.data
    rw [List.append_assoc]
    exact hsplit

theorem project_call_args (env : Env) (opts : UnsetOptions) (args : List String)
    (w : String) (confOpts : List String) (r : Res Project) (hne : args ≠ [])
    (h : Event.newProjectFromOptions w confOpts r ∈ (Run env opts args).2) :
    confOpts = args.map (fun a => a ++ "=n") := by
  revert h
  refine Run_elim env opts args hne
    (fun out => Event.newProjectFromOptions w confOpts r ∈ out.2 → _) ?_ ?_ ?_ ?_ ?_ ?_ ?_
  all_goals intros
  all_goals try rcases ‹_ = [] ∨ _ = [Event.getwd _]› with rfl | rfl
  all_goals try rcases ‹_ ∧ _ = [] ∨ _› with ⟨_, rfl⟩ | ⟨p, _, _, _, _, rfl⟩
  all_goals simp_all [eventsToStat, promptEvents]

theorem own_errors (env : Env) (opts : UnsetOptions) (args : List String) (m : String)
    (h : (Run env opts args).1 = some (.errorf m)) :
    m = "no options to unset" ∨ ∃ p, m = "dotconfig file does not exist: " ++ p := by
  by_cases hne : args = []
  · subst hne
    left
    simpa [Run] using h.symm
  · right
    revert h
    refine Run_elim env opts args hne
      (fun out => out.1 = some (.errorf m) → ∃ p, m = "dotconfig file does not exist: " ++ p)
      ?_ ?_ ?_ ?_ ?_ ?_ ?_
    all_goals intros
    all_goals intro h
    all_goals simp [notFoundMsg] at h
    · exact ⟨_, h.symm⟩
    · exact ⟨"", by simp [← h]⟩

theorem lookup_append_entry (snap : ConfigSnapshot) (k k1 : String) (v : Value) :
    lookup (snap ++ [mkEntry k v]) k1 = if k = k1 then some v else lookup snap k1 := by
  induction snap with
  | nil =>
    by_cases h : k = k1 <;> simp [lookup, mkEntry, h]
  | cons l ls ih =>
    have ih2 : lookup (ls.append [mkEntry k v]) k1 =
        if k = k1 then some v else lookup ls k1 := ih
    simp only [List.cons_append, lookup]
    rw [ih2]
    by_cases h : k = k1
    · simp [h]
    · simp [h]

theorem lookup_setValue_self (snap : ConfigSnapshot) (k : String) (v old : Value)
    (h : lookup snap k = some old) : lookup (setValue snap k v) k = some v := by
  induction snap generalizing old with
  | nil => simp [lookup] at h
  | cons l ls ih =>
    cases hls : lookup ls k with
    | some o =>
      simp [setValue, lookup, hls, ih o hls]
    | none =>
      cases l with
      | other r => simp [lookup, hls] at h
      | entry e =>
        by_cases hk : e.key = k
        · simp [setValue, lookup, hls, hk, mkEntry]
        · simp [lookup, hls, hk] at h

theorem lookup_setValue_other (snap : ConfigSnapshot) (k k1 : String) (v : Value)
    (hne : k1 ≠ k) : lookup (setValue snap k v) k1 = lookup snap k1 := by
  induction snap with
  | nil => simp [setValue]
  | cons l ls ih =>
    cases hls : lookup ls k with
    | some o =>
      simp [setValue, lookup, hls, ih]
    | none =>
      cases l with
      | other r => simp [setValue, lookup, hls]
      | entry e =>
        by_cases hk : e.key = k
        · have hk1 : ¬ e.key = k1 := by
            intro h1
            exact hne (h1 ▸ hk)
          have hk2 : ¬ k = k1 := fun h2 => hne h2.symm
          simp [setValue, lookup, hls, hk, mkEntry, hk1, hk2]
        · simp [setValue, lookup, hls, hk]

theorem Extends.refl (s : ConfigSnapshot) : Extends s s :=
  fun _ => ⟨id, id⟩

theorem Extends.trans {s t u : ConfigSnapshot} (h1 : Extends s t) (h2 : Extends t u) :
    Extends s u :=
  fun k => ⟨fun h => (h2 k).1 ((h1 k).1 h), fun h => (h2 k).2 ((h1 k).2 h)⟩

theorem applyDirective_unset (base : ConfigSnapshot) (acc : MergeResult) (d : Directive)
    (hd : d.value = .bool false) (hext : Extends base acc.snapshot) :
    Extends acc.snapshot (applyDirective base acc d).snapshot ∧
      lookup (applyDirective base acc d).snapshot d.key = some (.bool false) := by
  unfold applyDirective
  cases hb : lookup base d.key with
  | none =>
    simp only
    refine ⟨fun k => ?_, ?_⟩
    · rw [lookup_append_entry]
      by_cases hk : d.key = k
      · simp [hk, hd]
      · simp [hk]
    · rw [lookup_append_entry]
      simp [hd]
  | some old =>
    simp only
    by_cases ho : old = d.value
    · simp only [ho, if_true]
      refine ⟨Extends.refl _, ?_⟩
      apply (hext d.key).2
      rw [hb, ho, hd]
    · simp only [ho, if_false]
      have hsome : (lookup acc.snapshot d.key).isSome := (hext d.key).1 (by simp [hb])
      obtain ⟨o, ho2⟩ := Option.isSome_iff_exists.mp hsome
      have hself := lookup_setValue_self acc.snapshot d.key d.value o ho2
      refine ⟨fun k => ?_, by rw [hself, hd]⟩
      by_cases hk : k = d.key
      · subst hk
        rw [hself, hd]
        simp
      · rw [lookup_setValue_other _ _ _ _ hk]
        exact ⟨id, id⟩

theorem foldl_applyDirective_unset (base : ConfigSnapshot) (ds : List Directive)
    (hds : ∀ d ∈ ds, d.value = .bool false) (acc : MergeResult)
    (hext : Extends base acc.snapshot) :
    Extends acc.snapshot (ds.foldl (applyDirective base) acc).snapshot ∧
      ∀ d ∈ ds, lookup (ds.foldl (applyDirective base) acc).snapshot d.key =
        some (.bool false) := by
  induction ds generalizing acc with
  | nil => exact ⟨Extends.refl _, by simp⟩
  | cons d rest ih =>
    have hd := hds d (List.mem_cons_self _ _)
    have hstep := applyDirective_unset base acc d hd hext
    have hrest := ih (fun x hx => hds x (List.mem_cons_of_mem _ hx))
      (applyDirective base acc d) (hext.trans hstep.1)
    simp only [List.foldl_cons]
    refine ⟨hstep.1.trans hrest.1, ?_⟩
    intro x hx
    rcases List.mem_cons.mp hx with rfl | hx
    · exact (hrest.1 _).2 hstep.2
    · exact hrest.2 x hx

theorem foldl_applyDirective_fixed (base : ConfigSnapshot) (ds : List Directive)
    (h : ∀ d ∈ ds, lookup base d.key = some d.value) (acc : MergeResult) :
    ds.foldl (applyDirective base) acc = acc := by
  induction ds generalizing acc with
  | nil => rfl
  | cons d rest ih =>
    have hd := h d (List.mem_cons_self _ _)
    have hstep : applyDirective base acc d = acc := by
      simp [applyDirective, hd]
    simp only [List.foldl_cons, hstep]
    exact ih (fun x hx => h x (List.mem_cons_of_mem _ hx)) acc

theorem unsetDirectives_value (names : List String) :
    ∀ d ∈ unsetDirectives names, d.value = .bool false := by
  intro d hd
  simp only [unsetDirectives, List.mem_map] at hd
  obtain ⟨n, _, rfl⟩ := hd
  rfl

theorem merge_concrete_scenario :
    merge [mkEntry "LIBDEVFS_DEV_STDOUT" (.bool true), mkEntry "LWIP_TCP_SND_BUF" (.dec 2048)]
        (unsetDirectives ["LIBDEVFS_DEV_STDOUT", "LWIP_TCP_SND_BUF"]) =
      ⟨[mkEntry "LIBDEVFS_DEV_STDOUT" (.bool false), mkEntry "LWIP_TCP_SND_BUF" (.bool false)],
       [("LIBDEVFS_DEV_STDOUT", .changed (.bool true) (.bool false)),
        ("LWIP_TCP_SND_BUF", .changed (.dec 2048) (.bool false))]⟩ := by
  decide

theorem takeWhile_append_stop {α : Type} (p : α → Bool) (l rest : List α) (c : α)
    (hc : p c = false) :
    (l ++ c :: rest).takeWhile p = (l ++ [c]).takeWhile p := by
  induction l with
  | nil => simp [List.takeWhile, hc]
  | cons x xs ih =>
    simp only [List.cons_append, List.takeWhile_cons]
    rw [ih]

theorem takeWhile_append_stop_self {α : Type} (p : α → Bool) (l : List α) (c : α)
    (hl : ∃ x ∈ l, p x = false) :
    (l ++ [c]).takeWhile p = l.takeWhile p := by
  induction l with
  | nil => simp at hl
  | cons x xs ih =>
    simp only [List.cons_append, List.takeWhile_cons]
    cases hx : p x with
    | false => rfl
    | true =>
      simp only [if_true]
      congr 1
      apply ih
      obtain ⟨y, hy, hpy⟩ := hl
      rcases List.mem_cons.mp hy with rfl | hy
      · rw [hx] at hpy
        cases hpy
      · exact ⟨y, hy, hpy⟩

theorem takeWhile_append_stop_all {α : Type} (p : α → Bool) (l : List α) (c : α)
    (hc : p c = false) (hl : ∀ x ∈ l, p x = true) :
    (l ++ [c]).takeWhile p = l.takeWhile p := by
  induction l with
  | nil => simp [List.takeWhile, hc]
  | cons x xs ih =>
    have hx : p x = true := hl x (List.mem_cons_self _ _)
    simp only [List.cons_append, List.takeWhile_cons, hx, if_true]
    congr 1
    exact ih (fun y hy => hl y (List.mem_cons_of_mem _ hy))

theorem directiveKey_eq_takeWhile (text : String) :
    directiveKey text = String.mk (text.toList.takeWhile (fun ch => ch != '=')) := by
  unfold directiveKey specBuildDirective
  rw [List.span_eq_take_drop]
  cases text.toList.dropWhile (fun ch => ch != '=') <;> rfl

theorem directiveKey_append_suffix (a : String) :
    directiveKey (a ++ "=n") = directiveKey a := by
  rw [directiveKey_eq_takeWhile, directiveKey_eq_takeWhile]
  congr 1
  have hdata : (a ++ "=n").toList = a.toList ++ '=' :: ['n'] := by
    show (a ++ "=n").data = _
    rw [String.data_append]
    rfl
  rw [hdata, takeWhile_append_stop _ _ _ _ (by decide)]
  by_cases h : ∀ x ∈ a.toList, (fun ch => ch != '=') x = true
  · exact takeWhile_append_stop_all _ _ _ (by decide) h
  · apply takeWhile_append_stop_self _ _ _
    by_contra hno
    apply h
    intro x hx
    by_contra hpx
    exact hno ⟨x, hx, by simpa using hpx⟩

theorem map_directiveKey_suffix (args : List String) :
    (args.map (fun a => a ++ "=n")).map directiveKey = args.map directiveKey := by
  rw [List.map_map]
  apply List.map_congr_left
  intro a _
  exact directiveKey_append_suffix a

/-! ## Claims -/

/-- C1: on a non-empty argument list, whenever `Run` reaches project
construction, the directive list handed to `app.WithProjectConfig` is the
argument list with `"=n"` appended to each element: same length, same order,
and its i-th element is `args[i] ++ "=n"`. -/
theorem C1_directives_are_args_with_suffix (env : Env) (opts : UnsetOptions)
    (args : List String) (w : String) (confOpts : List String) (r : Res Project)
    (hne : args ≠ [])
    (h : Event.newProjectFromOptions w confOpts r ∈ (Run env opts args).2) :
    confOpts = args.map (fun a => a ++ "=n") ∧ confOpts.length = args.length ∧
      ∀ (i : Nat) (hi : i < args.length), confOpts[i]? = some (args[i] ++ "=n") := by
  have hc : confOpts = args.map (fun a => a ++ "=n") :=
    project_call_args env opts args w confOpts r hne h
  subst hc
  refine ⟨rfl, by simp, ?_⟩
  intro i hi
  simp [List.getElem?_map, List.getElem?_eq_getElem hi]

/-- Witness of C1 at the arguments of the command's own example. -/
theorem C1_witness :
    Event.newProjectFromOptions "/app" ["LIBDEVFS_DEV_STDOUT=n", "LWIP_TCP_SND_BUF=n"] (.ok ⟨0⟩) ∈
        (Run (mkEnv "/cwd" ["/app/.config"] false "") ⟨"/app"⟩
          ["LIBDEVFS_DEV_STDOUT", "LWIP_TCP_SND_BUF"]).2 ∧
      ["LIBDEVFS_DEV_STDOUT=n", "LWIP_TCP_SND_BUF=n"] =
        ["LIBDEVFS_DEV_STDOUT", "LWIP_TCP_SND_BUF"].map (fun a => a ++ "=n") :=
  ⟨by decide,
   (C1_directives_are_args_with_suffix (mkEnv "/cwd" ["/app/.config"] false "") ⟨"/app"⟩
      ["LIBDEVFS_DEV_STDOUT", "LWIP_TCP_SND_BUF"] "/app"
      ["LIBDEVFS_DEV_STDOUT=n", "LWIP_TCP_SND_BUF=n"] (.ok ⟨0⟩) (by decide) (by decide)).1⟩

/-- C2: on the empty argument list `Run` returns the error "no options to
unset" for every options value and every environment, and its whole trace is
the deprecation warning: no working-directory lookup, no existence check, no
prompt, no project construction and no project unset is made.  On a non-empty
argument list `Run` never returns that error. -/
theorem C2_empty_args_rejected_without_calls (env : Env) (opts : UnsetOptions) :
    Run env opts [] =
        (some (.errorf "no options to unset"), [Event.warnf deprecationMsg]) ∧
      (∀ ev ∈ (Run env opts []).2, ev.kind ≠ .getwd ∧ ev.kind ≠ .stat ∧
        ev.kind ≠ .newConfirm ∧ ev.kind ≠ .newTextInput ∧
        ev.kind ≠ .newProjectFromOptions ∧ ev.kind ≠ .projectUnset) ∧
      ∀ args : List String, args ≠ [] →
        (Run env opts args).1 ≠ some (.errorf "no options to unset") := by
  refine ⟨rfl, ?_, ?_⟩
  · intro ev hev
    have : ev = Event.warnf deprecationMsg := by simpa [Run] using hev
    subst this
    simp [Event.kind]
  · intro args hne
    refine Run_elim env opts args hne
      (fun out => out.1 ≠ some (.errorf "no options to unset")) ?_ ?_ ?_ ?_ ?_ ?_ ?_
    all_goals intros
    all_goals try simp
    all_goals exact notFoundMsg_append_ne _

/-- Witness of C2: the second half at a one-element argument list. -/
theorem C2_witness :
    Run (mkEnv "/cwd" [] false "") ⟨""⟩ [] =
        (some (.errorf "no options to unset"), [Event.warnf deprecationMsg]) ∧
      (Run (mkEnv "/cwd" [] false "") ⟨""⟩ ["FOO"]).1 ≠
        some (.errorf "no options to unset") :=
  ⟨(C2_empty_args_rejected_without_calls (mkEnv "/cwd" [] false "") ⟨""⟩).1,
   (C2_empty_args_rejected_without_calls (mkEnv "/cwd" [] false "") ⟨""⟩).2.2
      ["FOO"] (by decide)⟩

/-- C3: on a non-empty argument list, with the working directory resolved
to `w` and `<w>/.config` missing, if the confirm prompt answers false, or it
answers true and the text input returns the empty path, then `Run` fails with
the error "dotconfig file does not exist: ..." (followed by the checked path
when declined, by the empty path otherwise) and the trace holds neither a
project construction nor a project unset. -/
theorem C3_unresolved_missing_config_fails (env : Env) (opts : UnsetOptions)
    (args : List String) (w : String) (hne : args ≠ [])
    (hw : (setWorkdir env opts).1 = .ok w)
    (hst : env.stat (w ++ "/.config") = .errNotExist)
    (hans : env.newConfirm "Do you want to start in interactive mode:" = .ok false ∨
      (env.newConfirm "Do you want to start in interactive mode:" = .ok true ∧
        env.newTextInput "Path to dotconfig file:" "Enter path" "" = .ok "")) :
    (Run env opts args).1 = some (.errorf ("dotconfig file does not exist: " ++
        (if env.newConfirm "Do you want to start in interactive mode:" = .ok false
          then w ++ "/.config" else ""))) ∧
      ∀ ev ∈ (Run env opts args).2,
        ev.kind ≠ .newProjectFromOptions ∧ ev.kind ≠ .projectUnset := by
  refine Run_elim env opts args hne
    (fun out => out.1 = some (.errorf ("dotconfig file does not exist: " ++
        (if env.newConfirm "Do you want to start in interactive mode:" = .ok false
          then w ++ "/.config" else ""))) ∧
      ∀ ev ∈ out.2, ev.kind ≠ .newProjectFromOptions ∧ ev.kind ≠ .projectUnset)
    ?_ ?_ ?_ ?_ ?_ ?_ ?_
  all_goals intros
  all_goals try rcases ‹_ = [] ∨ _ = [Event.getwd _]› with rfl | rfl
  all_goals try rcases ‹_ ∧ _ = [] ∨ _› with ⟨_, rfl⟩ | ⟨p, _, _, _, _, rfl⟩
  all_goals
    simp_all [eventsToStat, promptEvents, confirmPrompt, notFoundMsg, Event.kind,
      isNotExist_eq_true, isNotExist_eq_false]

/-- Witness of C3: the prompt is declined in `/app`, which has no dotconfig. -/
theorem C3_witness :
    (Run (mkEnv "/cwd" [] false "") ⟨"/app"⟩ ["FOO"]).1 =
        some (.errorf "dotconfig file does not exist: /app/.config") ∧
      ∀ ev ∈ (Run (mkEnv "/cwd" [] false "") ⟨"/app"⟩ ["FOO"]).2,
        ev.kind ≠ .newProjectFromOptions ∧ ev.kind ≠ .projectUnset :=
  C3_unresolved_missing_config_fails (mkEnv "/cwd" [] false "") ⟨"/app"⟩ ["FOO"] "/app"
    (by decide) (by decide) (by decide) (Or.inl (by decide))

/-- C4 (evaluation at the failing input): `/app/.config` is missing, the
confirm prompt answers true, and two runs differ only in the path typed into
the text input.  Both construct the project from the working directory `/app`
and the directives alone: the path entered appears in the text-input event
and nowhere in the call of `app.NewProjectFromOptions`, which is the same in
the two runs. -/
theorem C4_entered_path_not_handed_to_project :
    Run (mkEnv "/cwd" [] true "/other/one.config") ⟨"/app"⟩ ["FOO"] =
        (none, [Event.warnf deprecationMsg,
          Event.stat "/app/.config" .errNotExist,
          Event.newConfirm "Do you want to start in interactive mode:" (.ok true),
          Event.newTextInput "Path to dotconfig file:" "Enter path" "" (.ok "/other/one.config"),
          Event.newProjectFromOptions "/app" ["FOO=n"] (.ok ⟨0⟩),
          Event.projectUnset ⟨0⟩ none]) ∧
      Run (mkEnv "/cwd" [] true "/other/two.config") ⟨"/app"⟩ ["FOO"] =
        (none, [Event.warnf deprecationMsg,
          Event.stat "/app/.config" .errNotExist,
          Event.newConfirm "Do you want to start in interactive mode:" (.ok true),
          Event.newTextInput "Path to dotconfig file:" "Enter path" "" (.ok "/other/two.config"),
          Event.newProjectFromOptions "/app" ["FOO=n"] (.ok ⟨0⟩),
          Event.projectUnset ⟨0⟩ none]) := by
  constructor <;> rfl

/-- C5 (counterexample): with the option name `FOO` given twice and
`/app/.config` present, `Run` returns no error and hands the directive list
`["FOO=n", "FOO=n"]`, which holds the key `FOO` twice, to the project. -/
theorem C5_counterexample_duplicate_passed :
    Run (mkEnv "/cwd" ["/app/.config"] false "") ⟨"/app"⟩ ["FOO", "FOO"] =
        (none, [Event.warnf deprecationMsg,
          Event.stat "/app/.config" .found,
          Event.newProjectFromOptions "/app" ["FOO=n", "FOO=n"] (.ok ⟨0⟩),
          Event.projectUnset ⟨0⟩ none]) ∧
      ¬ (["FOO=n", "FOO=n"].map directiveKey).Nodup := by
  constructor
  · rfl
  · decide

/-- C5 (amended): `Run` does no duplicate-key validation.  The only errors it
creates itself are "no options to unset" and "dotconfig file does not exist:
...".  Whenever it reaches project construction, the directive list handed
to the project has, position by position, the keys of the arguments (the key
of a text is its part before the first `=`): a key occurs among the
directives exactly as many times as among the arguments, the directives are
free of duplicate keys exactly when the keys of the arguments are pairwise
distinct, and the directive text `NAME=n` occurs as many times as the
argument `NAME`. -/
theorem C5_duplicates_passed_through (env : Env) (opts : UnsetOptions)
    (args : List String) :
    (∀ m, (Run env opts args).1 = some (.errorf m) →
        m = "no options to unset" ∨ ∃ p, m = "dotconfig file does not exist: " ++ p) ∧
      ∀ w confOpts r, args ≠ [] →
        Event.newProjectFromOptions w confOpts r ∈ (Run env opts args).2 →
        confOpts.map directiveKey = args.map directiveKey ∧
          (∀ key : String,
            (confOpts.map directiveKey).count key = (args.map directiveKey).count key) ∧
          ((confOpts.map directiveKey).Nodup ↔ (args.map directiveKey).Nodup) ∧
          (∀ name : String, confOpts.count (name ++ "=n") = args.count name) := by
  refine ⟨fun m h => own_errors env opts args m h, ?_⟩
  intro w confOpts r hne h
  have hc := project_call_args env opts args w confOpts r hne h
  subst hc
  have hkeys := map_directiveKey_suffix args
  refine ⟨hkeys, ?_, ?_, ?_⟩
  · intro key
    rw [hkeys]
  · rw [hkeys]
  · intro name
    exact List.count_map_of_injective args (fun a => a ++ "=n")
      (append_suffix_injective "=n") name

/-- Witness of C5 (amended): the arguments `FOO` and `FOO=y` are distinct
texts with the same key; the directives `FOO=n` and `FOO=y=n` have the keys
`FOO` and `FOO` as well. -/
theorem C5_witness :
    Event.newProjectFromOptions "/app" ["FOO=n", "FOO=y=n"] (.ok ⟨0⟩) ∈
        (Run (mkEnv "/cwd" ["/app/.config"] false "") ⟨"/app"⟩ ["FOO", "FOO=y"]).2 ∧
      ["FOO=n", "FOO=y=n"].map directiveKey = ["FOO", "FOO=y"].map directiveKey :=
  ⟨by decide,
   ((C5_duplicates_passed_through (mkEnv "/cwd" ["/app/.config"] false "") ⟨"/app"⟩
      ["FOO", "FOO=y"]).2 "/app" ["FOO=n", "FOO=y=n"] (.ok ⟨0⟩) (by decide) (by decide)).1⟩

/-- C6 (counterexample): the raw argument `FOO=y` has the shape NAME=VALUE;
read as the spec says it is the directive with key `FOO` and value `y`, but
`Run` hands the project the directive text `FOO=y=n`. -/
theorem C6_counterexample_suffix_on_key_value :
    Run (mkEnv "/cwd" ["/app/.config"] false "") ⟨"/app"⟩ ["FOO=y"] =
        (none, [Event.warnf deprecationMsg,
          Event.stat "/app/.config" .found,
          Event.newProjectFromOptions "/app" ["FOO=y=n"] (.ok ⟨0⟩),
          Event.projectUnset ⟨0⟩ none]) ∧
      specBuildDirective "FOO=y" = ("FOO", "y") ∧
      "FOO=y=n" ≠ renderDirective (specBuildDirective "FOO=y") := by
  refine ⟨rfl, by decide, by decide⟩

/-- C6 (amended): `Run` does not parse its arguments; `"=n"` is appended to
every raw argument, with or without `=`.  Whenever `Run` reaches project
construction, the i-th directive is `args[i] ++ "=n"`; for a raw argument
without `=` that is the spec's directive NAME=n (key the argument, value
`n`); for a raw argument that holds a `=` it is the argument followed by
`=n`, which differs from the argument read as NAME=VALUE. -/
theorem C6_suffix_appended_to_every_argument (env : Env) (opts : UnsetOptions)
    (args : List String) (w : String) (confOpts : List String) (r : Res Project)
    (hne : args ≠ [])
    (h : Event.newProjectFromOptions w confOpts r ∈ (Run env opts args).2)
    (i : Nat) (hi : i < args.length) :
    confOpts[i]? = some (args[i] ++ "=n") ∧
      ('=' ∉ args[i].toList →
        specBuildDirective args[i] = (args[i], "n") ∧
        confOpts[i]? = some (renderDirective (specBuildDirective args[i]))) ∧
      ('=' ∈ args[i].toList →
        renderDirective (specBuildDirective args[i]) = args[i] ∧
        confOpts[i]? ≠ some (renderDirective (specBuildDirective args[i]))) := by
  have hc := project_call_args env opts args w confOpts r hne h
  subst hc
  have hget : (args.map (fun a => a ++ "=n"))[i]? = some (args[i] ++ "=n") := by
    simp [List.getElem?_map, List.getElem?_eq_getElem hi]
  refine ⟨hget, ?_, ?_⟩
  · intro hno
    refine ⟨specBuildDirective_of_no_eq _ hno, ?_⟩
    rw [hget, specBuildDirective_of_no_eq _ hno, renderDirective_n]
  · intro hyes
    refine ⟨render_specBuildDirective_of_eq _ hyes, ?_⟩
    rw [hget, render_specBuildDirective_of_eq _ hyes]
    intro heq
    exact append_suffix_ne_self _ (Option.some.inj heq)

/-- Witness of C6 (amended): a bare name and a NAME=VALUE argument. -/
theorem C6_witness :
    Event.newProjectFromOptions "/app" ["FOO=n", "BAR=y=n"] (.ok ⟨0⟩) ∈
        (Run (mkEnv "/cwd" ["/app/.config"] false "") ⟨"/app"⟩ ["FOO", "BAR=y"]).2 ∧
      ["FOO=n", "BAR=y=n"][1]? = some (["FOO", "BAR=y"][1] ++ "=n") :=
  ⟨by decide,
   (C6_suffix_appended_to_every_argument (mkEnv "/cwd" ["/app/.config"] false "") ⟨"/app"⟩
      ["FOO", "BAR=y"] "/app" ["FOO=n", "BAR=y=n"] (.ok ⟨0⟩) (by decide) (by decide)
      1 (by decide)).1⟩

/-- C7: on a non-empty argument list the working directory is the `Workdir`
option when it is not empty and the answer of `os.Getwd` otherwise; every
existence check `Run` makes is of `<workdir>/.config`, and it makes that
check once the working directory is known; when the check reports the file
as existing, `Run` constructs the project with that same working directory
and calls neither prompt. -/
theorem C7_checks_workdir_dotconfig (env : Env) (opts : UnsetOptions)
    (args : List String) (hne : args ≠ []) :
    (setWorkdir env opts).1 =
        (if opts.Workdir ≠ "" then .ok opts.Workdir else env.getwd) ∧
      (∀ p r, Event.stat p r ∈ (Run env opts args).2 →
        ∃ w, (setWorkdir env opts).1 = .ok w ∧ p = w ++ "/.config" ∧ r = env.stat p) ∧
      ∀ w, (setWorkdir env opts).1 = .ok w →
        Event.stat (w ++ "/.config") (env.stat (w ++ "/.config")) ∈ (Run env opts args).2 ∧
        (env.stat (w ++ "/.config") = .found →
          (∃ r, Event.newProjectFromOptions w (args.map (fun a => a ++ "=n")) r ∈
            (Run env opts args).2) ∧
          ∀ ev ∈ (Run env opts args).2,
            ev.kind ≠ .newConfirm ∧ ev.kind ≠ .newTextInput ∧
            ∀ w1 c1 r1, ev = Event.newProjectFromOptions w1 c1 r1 → w1 = w) := by
  refine ⟨?_, ?_, ?_⟩
  · unfold setWorkdir
    by_cases h : opts.Workdir = "" <;> simp [h]
  · intro p r
    refine Run_elim env opts args hne
      (fun out => Event.stat p r ∈ out.2 →
        ∃ w, (setWorkdir env opts).1 = .ok w ∧ p = w ++ "/.config" ∧ r = env.stat p)
      ?_ ?_ ?_ ?_ ?_ ?_ ?_
    all_goals intros
    all_goals try rcases ‹_ = [] ∨ _ = [Event.getwd _]› with rfl | rfl
    all_goals try rcases ‹_ ∧ _ = [] ∨ _› with ⟨_, rfl⟩ | ⟨p, _, _, _, _, rfl⟩
    all_goals simp_all [eventsToStat, promptEvents]
  · intro w
    refine Run_elim env opts args hne
      (fun out => (setWorkdir env opts).1 = .ok w →
        Event.stat (w ++ "/.config") (env.stat (w ++ "/.config")) ∈ out.2 ∧
        (env.stat (w ++ "/.config") = .found →
          (∃ r, Event.newProjectFromOptions w (args.map (fun a => a ++ "=n")) r ∈ out.2) ∧
          ∀ ev ∈ out.2,
            ev.kind ≠ .newConfirm ∧ ev.kind ≠ .newTextInput ∧
            ∀ w1 c1 r1, ev = Event.newProjectFromOptions w1 c1 r1 → w1 = w))
      ?_ ?_ ?_ ?_ ?_ ?_ ?_
    all_goals intros
    all_goals try rcases ‹_ = [] ∨ _ = [Event.getwd _]› with rfl | rfl
    all_goals try rcases ‹_ ∧ _ = [] ∨ _› with ⟨_, rfl⟩ | ⟨p, _, _, _, _, rfl⟩
    all_goals
      simp_all [eventsToStat, promptEvents, Event.kind, isNotExist_eq_true,
        isNotExist_eq_false]
    all_goals
      rintro rfl
      simp_all

/-- Witness of C7: no `Workdir` option, the current directory is `/cwd` and
`/cwd/.config` exists. -/
theorem C7_witness :
    Event.stat "/cwd/.config" .found ∈
        (Run (mkEnv "/cwd" ["/cwd/.config"] true "/x") ⟨""⟩ ["FOO"]).2 ∧
      ∃ r, Event.newProjectFromOptions "/cwd" ["FOO=n"] r ∈
        (Run (mkEnv "/cwd" ["/cwd/.config"] true "/x") ⟨""⟩ ["FOO"]).2 :=
  ⟨((C7_checks_workdir_dotconfig (mkEnv "/cwd" ["/cwd/.config"] true "/x") ⟨""⟩ ["FOO"]
      (by decide)).2.2 "/cwd" (by decide)).1,
   (((C7_checks_workdir_dotconfig (mkEnv "/cwd" ["/cwd/.config"] true "/x") ⟨""⟩ ["FOO"]
      (by decide)).2.2 "/cwd" (by decide)).2 (by decide)).1⟩

/-- C8: the prompts are called only when the dotconfig is missing.  In a
run whose existence checks never report the file as non-existent, neither
the confirm prompt nor the text input is called; a confirm call comes after
an existence check that reported the file missing; a text-input call comes
after such a check and after a confirm call that returned true without
error, in that order. -/
theorem C8_prompts_only_when_missing (env : Env) (opts : UnsetOptions)
    (args : List String) :
    ((∀ p r, Event.stat p r ∈ (Run env opts args).2 → r.isNotExist = false) →
        ∀ ev ∈ (Run env opts args).2,
          ev.kind ≠ .newConfirm ∧ ev.kind ≠ .newTextInput) ∧
      (∀ ev ∈ (Run env opts args).2, ev.kind = .newConfirm →
        ∃ p, [Event.stat p .errNotExist, ev].Sublist (Run env opts args).2) ∧
      (∀ ev ∈ (Run env opts args).2, ev.kind = .newTextInput →
        ∃ p q, [Event.stat p .errNotExist, Event.newConfirm q (.ok true), ev].Sublist
          (Run env opts args).2) := by
  by_cases hne : args = []
  · subst hne
    refine ⟨?_, ?_, ?_⟩ <;> simp [Run, Event.kind]
  · exact ⟨prompts_absent_of_not_missing env opts args hne,
      confirm_after_missing env opts args hne, textInput_after_confirm env opts args hne⟩

/-- Witness of C8: `/app/.config` exists, so no prompt event is in the trace. -/
theorem C8_witness :
    (∀ p r, Event.stat p r ∈ (Run (mkEnv "/cwd" ["/app/.config"] true "/x") ⟨"/app"⟩ ["FOO"]).2 →
        r.isNotExist = false) ∧
      ∀ ev ∈ (Run (mkEnv "/cwd" ["/app/.config"] true "/x") ⟨"/app"⟩ ["FOO"]).2,
        ev.kind ≠ .newConfirm ∧ ev.kind ≠ .newTextInput :=
  ⟨by
    intro p r h
    have h2 : Event.stat p r = Event.stat "/app/.config" .found := by
      simpa [Run, runInWorkdir, constructAndUnset, setWorkdir, mkEnv, StatResult.isNotExist]
        using h
    cases h2
    rfl,
   (C8_prompts_only_when_missing (mkEnv "/cwd" ["/app/.config"] true "/x") ⟨"/app"⟩ ["FOO"]).1
    (by
      intro p r h
      have h2 : Event.stat p r = Event.stat "/app/.config" .found := by
        simpa [Run, runInWorkdir, constructAndUnset, setWorkdir, mkEnv, StatResult.isNotExist]
          using h
      cases h2
      rfl)⟩

/-- C9: no failure is retried and every failure ends the run.  In one call
of `Run` no collaborator is called twice; when a working-directory lookup,
a prompt, the project construction or the project unset returns an error,
that call is the last one of the run and `Run` returns that same error; and
when the working directory is resolved, the dotconfig is found (or a
non-empty path is entered after confirmation) and the project is
constructed, the last call is the project unset and its result is the
result of `Run`. -/
theorem C9_failures_terminal_no_retry (env : Env) (opts : UnsetOptions)
    (args : List String) :
    ((Run env opts args).2.map Event.kind).Nodup ∧
      (∀ ev ∈ (Run env opts args).2, ∀ e, ev.failure = some e →
        (Run env opts args).1 = some (.collab e) ∧
        (Run env opts args).2.getLast? = some ev) ∧
      (∀ w proj, args ≠ [] → (setWorkdir env opts).1 = .ok w →
        ((env.stat (w ++ "/.config")).isNotExist = false ∨
          ∃ p, p ≠ "" ∧
            env.newConfirm "Do you want to start in interactive mode:" = .ok true ∧
            env.newTextInput "Path to dotconfig file:" "Enter path" "" = .ok p) →
        env.newProjectFromOptions w (args.map (fun a => a ++ "=n")) = .ok proj →
        (Run env opts args).1 = (env.projectUnset proj).map Error.collab ∧
        (Run env opts args).2.getLast? =
          some (Event.projectUnset proj (env.projectUnset proj))) := by
  refine ⟨?_, ?_, ?_⟩
  · by_cases hne : args = []
    · subst hne
      simp [Run]
    · exact kinds_nodup env opts args hne
  · by_cases hne : args = []
    · subst hne
      simp [Run, Event.failure]
    · exact failure_is_terminal env opts args hne
  · intro w proj hne hw hres hproj
    exact result_is_unset_result env opts args hne w proj hw hres hproj

/-- Witness of C9: the project construction fails with "boom"; `Run`
returns that error and the construction is its last call. -/
theorem C9_witness :
    (Run (mkEnvProjectErr "/cwd" ["/cwd/.config"] "boom") ⟨""⟩ ["FOO"]).1 =
        some (.collab ⟨"boom"⟩) ∧
      (Run (mkEnvProjectErr "/cwd" ["/cwd/.config"] "boom") ⟨""⟩ ["FOO"]).2.getLast? =
        some (Event.newProjectFromOptions "/cwd" ["FOO=n"] (.err ⟨"boom"⟩)) :=
  (C9_failures_terminal_no_retry (mkEnvProjectErr "/cwd" ["/cwd/.config"] "boom") ⟨""⟩
    ["FOO"]).2.1 (Event.newProjectFromOptions "/cwd" ["FOO=n"] (.err ⟨"boom"⟩))
    (by decide) ⟨"boom"⟩ rfl

/-- C10: idempotence of the overlay.  For every base snapshot and every list
of option names, merging the unset directives of those names onto the result
of merging them once gives back that result (the same snapshot) and records
no change. -/
theorem C10_unset_overlay_idempotent (base : ConfigSnapshot) (names : List String) :
    (merge (merge base (unsetDirectives names)).snapshot (unsetDirectives names)).snapshot =
        (merge base (unsetDirectives names)).snapshot ∧
      (merge (merge base (unsetDirectives names)).snapshot (unsetDirectives names)).changes =
        [] := by
  have hvals := unsetDirectives_value names
  have hfirst := (foldl_applyDirective_unset base (unsetDirectives names) hvals ⟨base, []⟩
    (Extends.refl base)).2
  have hfix := foldl_applyDirective_fixed (merge base (unsetDirectives names)).snapshot
    (unsetDirectives names)
    (fun d hd => by rw [hvals d hd]; exact hfirst d hd)
    ⟨(merge base (unsetDirectives names)).snapshot, []⟩
  have hm : merge (merge base (unsetDirectives names)).snapshot (unsetDirectives names) =
      ⟨(merge base (unsetDirectives names)).snapshot, []⟩ := hfix
  rw [hm]
  exact ⟨rfl, rfl⟩

end Unset
